import Mathlib

/-!
Verification of the Qontrol host-side driver (qontrol.py, virtual_module.py).

The Python source is shallowly embedded: machine bytes are `Nat` values with
explicit range checks mirroring `struct.pack` and `bytes(...)`, fallible code
returns `Except` or `Option`, and the stateful response-collection loop is a
recursive function over an explicit trace of serial-port observations.
-/

namespace Qontrol

/-! ## Header flags (class Header(IntFlag) in qontrol.py) -/

def BIN   : Nat := 0x80
def BCAST : Nat := 0x40
def ALLCH : Nat := 0x20
def ADDM  : Nat := 0x10
def RW    : Nat := 0x08
def ACT   : Nat := 0x04
def DEXT  : Nat := 0x02

/-- Python IntFlag membership test: `flag in header` means `header & flag == flag`. -/
def hasFlag (header flag : Nat) : Bool := header &&& flag == flag

/-! ## Header modes (class HeaderMode in qontrol.py) -/

inductive HeaderMode where
  | WRITE | WRITE_DEXT | WRITE_ALLCH | READ | READ_ALLCH | ACT_M
deriving DecidableEq, Repr

def HeaderMode.value : HeaderMode → Nat
  | .WRITE       => BIN
  | .WRITE_DEXT  => BIN ||| DEXT
  | .WRITE_ALLCH => BIN ||| ALLCH
  | .READ        => BIN ||| RW
  | .READ_ALLCH  => BIN ||| RW ||| ALLCH
  | .ACT_M       => BIN ||| ACT

/-! ## Command catalog (class CmdIndex in qontrol.py) -/

inductive CmdIndex where
  | V | I | VMAX | IMAX | VCAL | ICAL | VERR | IERR | VIP
  | SR | PDI | PDP | PDR | GAIN
  | VFULL | IFULL | NCHAN | FIRMWARE | ID | LIFETIME | NVM | LOG | QUIET
  | LED | NUP | ADCT | ADCN | CCFN | INTEST | OK | DIGSUP
  | HELP | SAFE | ROCOM
deriving DecidableEq, Repr

def CmdIndex.code : CmdIndex → Nat
  | .V => 0x00 | .I => 0x01 | .VMAX => 0x02 | .IMAX => 0x03
  | .VCAL => 0x04 | .ICAL => 0x05 | .VERR => 0x06 | .IERR => 0x07
  | .VIP => 0x0A | .SR => 0x0B | .PDI => 0x0C | .PDP => 0x0D
  | .PDR => 0x0E | .GAIN => 0x0F | .VFULL => 0x20 | .IFULL => 0x21
  | .NCHAN => 0x22 | .FIRMWARE => 0x23 | .ID => 0x24 | .LIFETIME => 0x25
  | .NVM => 0x26 | .LOG => 0x27 | .QUIET => 0x28 | .LED => 0x31
  | .NUP => 0x32 | .ADCT => 0x33 | .ADCN => 0x34 | .CCFN => 0x35
  | .INTEST => 0x36 | .OK => 0x37 | .DIGSUP => 0x38 | .HELP => 0x41
  | .SAFE => 0x42 | .ROCOM => 0x43

open HeaderMode in
/-- Supported header-mode set per catalog entry, as listed in CmdIndex. -/
def CmdIndex.header_modes : CmdIndex → List HeaderMode
  | .V        => [WRITE, WRITE_DEXT, WRITE_ALLCH, READ, READ_ALLCH]
  | .I        => [WRITE, WRITE_DEXT, WRITE_ALLCH, READ, READ_ALLCH]
  | .VMAX     => [WRITE, WRITE_DEXT, WRITE_ALLCH, READ, READ_ALLCH]
  | .IMAX     => [WRITE, WRITE_DEXT, WRITE_ALLCH, READ, READ_ALLCH]
  | .VCAL     => [WRITE, ACT_M, WRITE_ALLCH, READ, READ_ALLCH]
  | .ICAL     => [WRITE, ACT_M, WRITE_ALLCH, READ, READ_ALLCH]
  | .VERR     => [READ, READ_ALLCH]
  | .IERR     => [READ, READ_ALLCH]
  | .VIP      => [READ_ALLCH]
  | .SR       => []
  | .PDI      => []
  | .PDP      => []
  | .PDR      => []
  | .GAIN     => []
  | .VFULL    => [READ_ALLCH]
  | .IFULL    => [READ_ALLCH]
  | .NCHAN    => [READ_ALLCH]
  | .FIRMWARE => [READ, READ_ALLCH]
  | .ID       => [READ, READ_ALLCH]
  | .LIFETIME => [READ, READ_ALLCH]
  | .NVM      => [WRITE_ALLCH, READ_ALLCH]
  | .LOG      => [READ, READ_ALLCH]
  | .QUIET    => []
  | .LED      => [WRITE, READ, READ_ALLCH, WRITE_ALLCH]
  | .NUP      => [WRITE, READ]
  | .ADCT     => [WRITE, READ, READ_ALLCH, WRITE_ALLCH]
  | .ADCN     => [WRITE, READ, READ_ALLCH, WRITE_ALLCH]
  | .CCFN     => [WRITE, READ, READ_ALLCH, WRITE_ALLCH]
  | .INTEST   => [ACT_M]
  | .OK       => [WRITE, READ, READ_ALLCH, WRITE_ALLCH]
  | .DIGSUP   => []
  | .HELP     => [READ]
  | .SAFE     => [WRITE, READ, READ_ALLCH, WRITE_ALLCH]
  | .ROCOM    => [WRITE, READ, READ_ALLCH, WRITE_ALLCH]

/-! ## Command value object (dataclass Command in qontrol.py) -/

/-- A Python data payload: a scalar int or a list of ints (the integer-valued
uses of the dynamically typed `data` field). -/
inductive PyData where
  | int (n : Nat)
  | list (xs : List Nat)
deriving DecidableEq, Repr

structure Command where
  idx : CmdIndex
  addr : Nat := 0
  addr_id : Nat := 0
  header : Nat := BIN
  data : Option PyData := none
deriving DecidableEq, Repr

/-- Python falsiness of the `data` field: `not self.data` is true for
None, 0 and the empty list. -/
def dataFalsy : Option PyData → Bool
  | none => true
  | some (.int 0) => true
  | some (.int (_+1)) => false
  | some (.list []) => true
  | some (.list (_ :: _)) => false

/-- Header normalization done by `Command.__post_init__`: force BIN on, and
add RW when the data field is falsy. -/
def Command.postInit (c : Command) : Command :=
  let h := c.header ||| BIN
  { c with header := if dataFalsy c.data then h ||| RW else h }

/-- XOR-fold parity of `Command._parity_odd`. -/
def parity_odd (x : Nat) : Nat :=
  let x := x ^^^ (x >>> 4)
  let x := x ^^^ (x >>> 2)
  let x := x ^^^ (x >>> 1)
  x &&& 1

/-- Pack one unsigned 16-bit big-endian value (`struct.pack` format H with
a leading > in the format string); out-of-range values raise struct.error. -/
def packH (v : Nat) : Except String (List Nat) :=
  if v ≤ 0xFFFF then .ok [v / 256, v % 256]
  else .error "struct.error: H format requires 0 <= number <= 65535"

/-- Build a one-byte field (`bytes([v])` or struct format c); values outside
0..255 raise ValueError. -/
def packByte (v : Nat) : Except String (List Nat) :=
  if v ≤ 0xFF then .ok [v]
  else .error "ValueError: bytes must be in range(0, 256)"

/-- Pack a list of 16-bit big-endian words in order. -/
def packHList : List Nat → Except String (List Nat)
  | [] => .ok []
  | v :: vs => do
      let b ← packH v
      let rest ← packHList vs
      .ok (b ++ rest)

/-- Address field of `Command.binary`: format >Hc (device id + channel byte)
when ADDM is set, format >xH (pad byte + channel word) when it is not. -/
def Command.addrBytes (c : Command) : Except String (List Nat) :=
  if hasFlag c.header ADDM then do
    let idB ← packH c.addr_id
    let chB ← packByte c.addr
    .ok (idB ++ chB)
  else do
    let chB ← packH c.addr
    .ok (0 :: chB)

/-- Data field of `Command.binary`: with DEXT set, a 16-bit element count
followed by the 16-bit elements (format H * (len(data)+1)); with DEXT unset,
a single 16-bit value. Type mismatches raise, as in Python. -/
def Command.dataBytes (c : Command) : Except String (List Nat) :=
  let data := c.data.getD (.int 0)
  if hasFlag c.header DEXT then
    match data with
    | .list xs => do
        let cnt ← packH xs.length
        let ws ← packHList xs
        .ok (cnt ++ ws)
    | .int _ => .error "TypeError: object of type int has no len"
  else
    match data with
    | .int n => packH n
    | .list _ => .error "struct.error: required argument is not an integer"

/-- Binary encoding of a command (`Command.binary`): parity-completed header
byte, command-code byte, 3-byte address field, then the data field. -/
def Command.binary (c : Command) : Except String (List Nat) := do
  let header := c.header ||| parity_odd c.header
  let hB ← packByte header
  let aB ← c.addrBytes
  let dB ← c.dataBytes
  .ok (hB ++ [c.idx.code] ++ aB ++ dB)

/-- Validation of `Command.allowed`: the header must equal the integer value
of one of the declared header modes of the command index. -/
def Command.allowed (c : Command) : Bool :=
  (c.idx.header_modes.map HeaderMode.value).contains c.header

/-- Number of set bits among the low 8 bits (the set-bit count of a byte). -/
def popCount8 (n : Nat) : Nat :=
  ((List.range 8).filter (fun i => n.testBit i)).length

/-! ## Virtual device simulator (virtual_module.py) -/

/-- Lower-case hex digit, as produced by `bytes.hex()`. -/
def hexDigit (n : Nat) : Char :=
  if n < 10 then Char.ofNat (48 + n) else Char.ofNat (87 + n)

/-- Hex rendering of a byte string (`bytes.hex()`): two lower-case hex
characters per byte, no separators. -/
def bytesHex (bs : List Nat) : String :=
  String.mk (bs.flatMap (fun b => [hexDigit (b / 16), hexDigit (b % 16)]))

/-- ASCII decoding of a byte string (`bytes.decode` with encoding ascii);
bytes above 127 raise UnicodeDecodeError. -/
def asciiDecode (bs : List Nat) : Option String :=
  if bs.all (fun b => b < 128) then some (String.mk (bs.map Char.ofNat))
  else none

/-- Command key derived from the written bytes in
`VirtualModule.handle_write_event`: the hex string when the first byte is
above 0x80, the ASCII decoding otherwise. -/
def writeKey (bs : List Nat) : Option String :=
  match bs with
  | [] => none
  | b :: _ => if b > 0x80 then some (bytesHex bs) else asciiDecode bs

/-- Simulator action tag (enum Action in virtual_module.py). -/
inductive Action where
  | QUEUE_OUT | QUEUE_OUT_MANY | RUN_CUSTOM | NOP
deriving DecidableEq, Repr

/-- One response entry of a program command (an element of a cmd entry's
entries list). Fields mirror the dictionary keys used by the simulator. -/
structure ProgEntry where
  action : Action
  dataOne : String := ""
  dataMany : List String := []
  delay : Option Rat := none
  divideFrames : Option (List Nat) := none
  divideDelays : Option (List Rat) := none
deriving DecidableEq, Repr

/-- One command entry of a program (an element of Program.data). -/
structure CmdEntry where
  cmd : String
  encoding : String
  entries : List ProgEntry
deriving DecidableEq, Repr

/-- A simulator program (dataclass Program): the data list plus the
command-to-index map cmd2idx. -/
structure Program where
  data : List CmdEntry
  cmd2idx : List (String × Nat)
deriving DecidableEq, Repr

/-- Association-list lookup, modelling Python dict indexing. -/
def alistFind (m : List (String × Nat)) (k : String) : Option Nat :=
  match m.find? (fun p => p.1 == k) with
  | some p => some p.2
  | none => none

/-- Program lookup (`Program.__getitem__`): fall back to the key * when the
command text is not in cmd2idx; missing * or an out-of-range index is a
Python KeyError/IndexError, modelled as none. -/
def Program.getItem (p : Program) (cmd : String) : Option CmdEntry :=
  let key := if (alistFind p.cmd2idx cmd).isSome then cmd else "*"
  match alistFind p.cmd2idx key with
  | none => none
  | some i => p.data.get? i

/-- The per-command invocation counters (VirtualModule.cmd_cnt): a Python
dictionary keyed by command text, read through get with default 0, so it is
modelled as a total function that is zero outside its populated keys; the
running total is stored under the key all. -/
abbrev CmdCnt := String → Nat

/-- Counter read (`VirtualModule._read_cmd_cnt`): dict get with default 0. -/
def readCmdCnt (st : CmdCnt) (cmd : String) : Nat := st cmd

/-- Add one to a single key of the counter dictionary (initializing the key
to 0 first when absent, as `_inc_cmd_cnt` does). -/
def bumpKey (st : CmdCnt) (cmd : String) : CmdCnt :=
  fun k => if k = cmd then st k + 1 else st k

/-- Counter increment (`VirtualModule._inc_cmd_cnt`): bump the command's own
key, then the running total under the key all. -/
def incCmdCnt (st : CmdCnt) (cmd : String) : CmdCnt :=
  bumpKey (bumpKey st cmd) "all"

/-- Write-event handler (`VirtualModule.handle_write_event`), up to the
selection of the response entry to dispatch: derive the command key from the
written bytes, look the key up in the program, increment the invocation
counter, and select the entry at (count - 1) mod length. Returns the updated
counters and the selected entry (none when the entries list is empty).
Failures of the key derivation or the program lookup are none. -/
def handleWrite (p : Program) (st : CmdCnt) (bs : List Nat) :
    Option (CmdCnt × Option ProgEntry) :=
  match writeKey bs with
  | none => none
  | some cmd =>
    match p.getItem cmd with
    | none => none
    | some cmdData =>
      let st2 := incCmdCnt st cmd
      let responses := cmdData.entries
      if responses.isEmpty then some (st2, none)
      else
        let index := (readCmdCnt st2 cmd - 1) % responses.length
        some (st2, responses.get? index)

/-! ## Program generator (class ProgramGenerator in virtual_module.py) -/

/-- Log entry kind (the type field of a Qontroller log item). -/
inductive LogType where
  | tx | rcv | err | other
deriving DecidableEq, Repr

/-- One Qontroller log item, restricted to the fields the generator reads.
The desc field is a string for tx items and a list of lines for rcv items;
the two uses are split into desc and descLines. rawIsBytes records whether
the raw field holds bytes (binary transmissions). -/
structure QLogItem where
  proctime : Rat
  type : LogType
  desc : String := ""
  descLines : List String := []
  raw : String := ""
  rawIsBytes : Bool := false
deriving DecidableEq, Repr

/-- dataclass Response of virtual_module.py. -/
structure VResponse where
  delay : Rat
  data : List String
deriving DecidableEq, Repr

/-- dataclass LogEntry of virtual_module.py. -/
structure VLogEntry where
  cmd : String
  encoding : String
  responses : List VResponse
deriving DecidableEq, Repr

/-- Replace the last element of a list (deque pop followed by append). -/
def updateLast (acc : List VLogEntry) (f : VLogEntry → VLogEntry) :
    Option (List VLogEntry) :=
  match acc.getLast? with
  | none => none
  | some e => some (acc.dropLast ++ [f e])

/-- Core of `ProgramGenerator._parse_log`: walk the log, opening a new entry
at each tx item and appending a response to the newest entry at each rcv or
err item, with the delay taken as this item's time minus the previous item's
time (both in milliseconds); every item updates the previous time. A rcv or
err before any tx is an IndexError, modelled as none. -/
def parseLogAux : List QLogItem → List VLogEntry → Rat → Option (List VLogEntry)
  | [], acc, _ => some acc
  | item :: rest, acc, prevTime =>
    let timeMs := 1000 * item.proctime
    match item.type with
    | .tx =>
        let enc := if item.rawIsBytes then "binary" else "ascii"
        parseLogAux rest (acc ++ [⟨item.desc, enc, []⟩]) timeMs
    | .rcv =>
        match updateLast acc (fun e =>
          { e with responses := e.responses ++ [⟨timeMs - prevTime, item.descLines⟩] }) with
        | none => none
        | some acc2 => parseLogAux rest acc2 timeMs
    | .err =>
        match updateLast acc (fun e =>
          { e with responses := e.responses ++ [⟨timeMs - prevTime, [item.raw]⟩] }) with
        | none => none
        | some acc2 => parseLogAux rest acc2 timeMs
    | .other => parseLogAux rest acc timeMs

/-- `ProgramGenerator._parse_log` started on the empty deque with
prev_time = 0. -/
def parseLog (log : List QLogItem) : Option (List VLogEntry) :=
  parseLogAux log [] 0

/-- The program entry produced by `ProgramGenerator._gen_entry` for one
parsed log entry: the concatenated response data, QUEUE_OUT for a single
item and QUEUE_OUT_MANY otherwise, and either a single delay (one response
chunk) or a divide component with one frame length and one delay per
chunk. -/
def genEntry (e : VLogEntry) : ProgEntry :=
  let data := e.responses.flatMap (fun r => r.data)
  let frames := e.responses.map (fun r => r.data.length)
  let delays := e.responses.map (fun r => r.delay)
  let base : ProgEntry :=
    if data.length = 1 then
      { action := .QUEUE_OUT, dataOne := data.headI }
    else
      { action := .QUEUE_OUT_MANY, dataMany := data }
  if frames.length = 1 then
    { base with delay := some (delays.headI) }
  else
    { base with divideFrames := some frames, divideDelays := some delays }

/-- A response log item following a transmit: either a rcv item carrying a
list of lines, or an err item carrying its raw text. Used to describe
session logs whose shape the generator is specified on. -/
structure RespItem where
  rtime : Rat
  isErr : Bool
  lines : List String := []
  raw : String := ""
deriving DecidableEq, Repr

/-- The log item a RespItem denotes. -/
def RespItem.toQLogItem (r : RespItem) : QLogItem :=
  if r.isErr then { proctime := r.rtime, type := .err, raw := r.raw }
  else { proctime := r.rtime, type := .rcv, descLines := r.lines }

/-- The response data the generator extracts from the item: the received
lines for a rcv item, the singleton raw text for an err item. -/
def RespItem.data (r : RespItem) : List String :=
  if r.isErr then [r.raw] else r.lines

/-- One transmit together with the responses that follow it before the next
transmit. -/
structure TxBlock where
  txTime : Rat
  cmd : String
  isBinary : Bool := false
  resps : List RespItem
deriving DecidableEq, Repr

/-- The log items of one block: the tx item, then the response items. -/
def TxBlock.items (b : TxBlock) : List QLogItem :=
  { proctime := b.txTime, type := .tx, desc := b.cmd, rawIsBytes := b.isBinary }
    :: b.resps.map RespItem.toQLogItem

/-- A session log made of transmit blocks. -/
def sessionLog (bs : List TxBlock) : List QLogItem :=
  bs.flatMap TxBlock.items

/-- The responses the generator is expected to record: each delay is the
difference in milliseconds between the item's own time and the previous log
item's time, the first one being measured from the transmit. -/
def expectedResponses (prev : Rat) : List RespItem → List VResponse
  | [] => []
  | r :: rest =>
      ⟨1000 * r.rtime - 1000 * prev, r.data⟩ :: expectedResponses r.rtime rest

/-- The time of the last item of a block, given the time before it. -/
def endTime (prev : Rat) : List RespItem → Rat
  | [] => prev
  | r :: rest => endTime r.rtime rest

/-- The parsed log entry a block should produce. -/
def TxBlock.expectedEntry (b : TxBlock) : VLogEntry :=
  ⟨b.cmd, if b.isBinary then "binary" else "ascii",
    expectedResponses b.txTime b.resps⟩

/-- The entry freshly opened for a transmit, before any responses. -/
def TxBlock.freshEntry (b : TxBlock) : VLogEntry :=
  ⟨b.cmd, if b.isBinary then "binary" else "ascii", []⟩

/-! ## Transport session response collection (qontrol.py,
Qontroller._issue_command_receive_response) -/

/-- The literal RESPONSE_OK sentinel. -/
def RESPONSE_OK : String := "OK\n"

/-- A parsed device error, restricted to the field the loop reads. -/
structure PErr where
  id : Nat
deriving DecidableEq, Repr

/-- What one loop iteration observes from the outside world: the two wall
clock samples taken by the break checks, the lines and errors returned by
receive(), and the clock sample taken right after a non-empty receive. -/
structure RecvStep where
  tBreak : Rat
  tInter : Rat
  recLines : List String
  recErrs : List PErr
  tMsg : Rat
deriving DecidableEq, Repr

/-- The arguments of `_issue_command_receive_response` that the loop control
flow reads, with the output regex matching abstracted into an extraction
function applied to each returned line. -/
structure LoopParams (α : Type) where
  nLinesRequested : Nat
  targetErrors : List Nat
  timeout : Rat
  interResponseTimeout : Rat
  startTime : Rat
  extract : String → α

/-- How one call to `_issue_command_receive_response` ends: with parsed
values, a timeout RuntimeError, a target-error RuntimeError, or by returning
the result of the retry continuation. -/
inductive Outcome (α : Type) where
  | success (values : List α)
  | timeoutError
  | targetError
  | retry
deriving DecidableEq, Repr

/-- The code after the collection loop: a timeout RuntimeError when no lines
and no errors arrived, otherwise the lines mapped through the extractor. -/
def finishLoop {α : Type} (P : LoopParams α) (lines : List String)
    (errs : List PErr) : Outcome α :=
  if lines.length = 0 ∧ errs.length = 0 then .timeoutError
  else .success (lines.map P.extract)

/-- The collection loop of `_issue_command_receive_response`, driven by a
finite trace of port observations; none means the trace ran out before the
loop terminated. Returns the outcome together with the lines and errors
accumulated when the loop ended. Break conditions are checked at the top of
each iteration in source order; after each receive the serial-communication
check (error id 15) returns the retry outcome and the target-error check
raises. -/
def collectLoop {α : Type} (P : LoopParams α) :
    List RecvStep → List String → List PErr → Rat →
    Option (Outcome α × List String × List PErr)
  | [], _, _, _ => none
  | s :: rest, lines, errs, lastMessageTime =>
    if RESPONSE_OK ∈ lines then
      some (finishLoop P lines errs, lines, errs)
    else if lines.length ≥ P.nLinesRequested then
      some (finishLoop P lines errs, lines, errs)
    else if ¬ (errs.all (fun e => !(P.targetErrors.contains e.id))) then
      some (finishLoop P lines errs, lines, errs)
    else if s.tBreak - P.startTime > P.timeout ∧
            s.tInter - lastMessageTime > P.interResponseTimeout then
      some (finishLoop P lines errs, lines, errs)
    else
      let lines' := lines ++ s.recLines
      let errs' := errs ++ s.recErrs
      let lastMessageTime' :=
        if s.recLines.length + s.recErrs.length > 0 then s.tMsg
        else lastMessageTime
      if errs'.any (fun e => e.id == 15) then
        some (.retry, lines', errs')
      else if errs'.any (fun e => P.targetErrors.contains e.id) then
        some (.targetError, lines', errs')
      else
        collectLoop P rest lines' errs' lastMessageTime'

/-- Top-level result of issuing a command, after the retry continuation has
been followed: the outcomes that can reach the caller. -/
inductive FinalResult (α : Type) where
  | success (values : List α)
  | timeoutError
  | targetError
deriving DecidableEq, Repr

/-- Issue a command and follow the retry continuation: each list element is
the port-observation trace of one attempt; a retry outcome reissues the
identical command against the next trace. none when a trace ran out or the
attempt list was exhausted while retrying. -/
def issueReceive {α : Type} (P : LoopParams α) :
    List (List RecvStep) → Option (FinalResult α)
  | [] => none
  | tr :: rest =>
    match collectLoop P tr [] [] P.startTime with
    | none => none
    | some (.retry, _, _) => issueReceive P rest
    | some (.success vs, _, _) => some (.success vs)
    | some (.timeoutError, _, _) => some (.timeoutError)
    | some (.targetError, _, _) => some (.targetError)


/-- First scripted response of the demonstration program. -/
def demoEntryA : ProgEntry :=
  { action := .QUEUE_OUT, dataOne := "Q8iv-0000\n", delay := some 0 }

/-- Second scripted response of the demonstration program. -/
def demoEntryB : ProgEntry :=
  { action := .QUEUE_OUT, dataOne := "OK\n", delay := some 0 }

/-- Default response of the demonstration program. -/
def demoDefault : ProgEntry :=
  { action := .QUEUE_OUT, dataOne := "E10:00", delay := some 0 }

/-- A small concrete program: two responses for the id query, one default. -/
def demoProgram : Program :=
  { data := [⟨"id?\n", "ascii", [demoEntryA, demoEntryB]⟩,
             ⟨"*", "ascii", [demoDefault]⟩],
    cmd2idx := [("id?\n", 0), ("*", 1)] }

/-- The all-zero counter state. -/
def zeroCnt : CmdCnt := fun _ => 0


/-- The command used to exercise the uncapped element count: DATA_EXTENDED
set, with a 65536-element list payload. -/
def oversizedCmd : Command :=
  { idx := .V, header := BIN ||| DEXT,
    data := some (.list (List.replicate 65536 0)) }

/-! ## Lemmas about the binary codec -/

theorem bind_ok_iff {ε α β : Type} {x : Except ε α} {f : α → Except ε β}
    {v : β} :
    (x >>= f) = Except.ok v ↔ ∃ u, x = Except.ok u ∧ f u = Except.ok v := by
  cases x <;> simp [Except.bind, Bind.bind]

theorem packByte_ok {v : Nat} {l : List Nat} (h : packByte v = .ok l) :
    l = [v] ∧ v ≤ 255 := by
  unfold packByte at h
  split at h
  · cases h; exact ⟨rfl, by omega⟩
  · exact absurd h (by simp)

theorem packH_ok {v : Nat} {l : List Nat} (h : packH v = .ok l) :
    l = [v / 256, v % 256] ∧ v ≤ 65535 := by
  unfold packH at h
  split at h
  · cases h; exact ⟨rfl, by omega⟩
  · exact absurd h (by simp)

theorem packHList_ok {xs : List Nat} {l : List Nat}
    (h : packHList xs = .ok l) :
    (∀ v ∈ xs, v ≤ 65535) ∧ l = xs.flatMap (fun v => [v / 256, v % 256]) := by
  induction xs generalizing l with
  | nil => cases h; simp
  | cons v vs ih =>
    simp only [packHList, bind_ok_iff] at h
    obtain ⟨b, hb, rest, hrest, hout⟩ := h
    cases hout
    obtain ⟨hb', hv255⟩ := packH_ok hb
    obtain ⟨hall, hrest'⟩ := ih hrest
    subst hb' hrest'
    refine ⟨?_, by simp⟩
    intro x hx
    rcases List.mem_cons.mp hx with h | h
    · exact h ▸ hv255
    · exact hall x h

/-- Shape of a successful binary encoding: parity-completed header byte,
command code byte, then the address and data fields. -/
theorem binary_ok_shape {c : Command} {bs : List Nat}
    (h : c.binary = .ok bs) :
    ∃ aB dB, c.addrBytes = .ok aB ∧ c.dataBytes = .ok dB ∧
      (c.header ||| parity_odd c.header) ≤ 255 ∧
      bs = (c.header ||| parity_odd c.header) :: c.idx.code :: (aB ++ dB) := by
  simp only [Command.binary, bind_ok_iff] at h
  obtain ⟨hB, hb, aB, ha, dB, hd, hout⟩ := h
  cases hout
  obtain ⟨hB', hle⟩ := packByte_ok hb
  subst hB'
  exact ⟨aB, dB, ha, hd, hle, by simp⟩

theorem addrBytes_addm {c : Command} {aB : List Nat}
    (hf : hasFlag c.header ADDM = true) (h : c.addrBytes = .ok aB) :
    aB = [c.addr_id / 256, c.addr_id % 256, c.addr] ∧
      c.addr_id ≤ 65535 ∧ c.addr ≤ 255 := by
  simp only [Command.addrBytes, hf, if_pos, bind_ok_iff] at h
  obtain ⟨idB, hi, chB, hc, hout⟩ := h
  cases hout
  obtain ⟨hi', hi65⟩ := packH_ok hi
  obtain ⟨hc', hc255⟩ := packByte_ok hc
  subst hi' hc'
  exact ⟨rfl, hi65, hc255⟩

theorem addrBytes_noaddm {c : Command} {aB : List Nat}
    (hf : hasFlag c.header ADDM = false) (h : c.addrBytes = .ok aB) :
    aB = [0, c.addr / 256, c.addr % 256] ∧ c.addr ≤ 65535 := by
  simp only [Command.addrBytes, hf, Bool.false_eq_true, if_false,
    bind_ok_iff] at h
  obtain ⟨chB, hc, hout⟩ := h
  cases hout
  obtain ⟨hc', hc65⟩ := packH_ok hc
  subst hc'
  exact ⟨rfl, hc65⟩

/-- Every successful address field is exactly three bytes. -/
theorem addrBytes_length {c : Command} {aB : List Nat}
    (h : c.addrBytes = .ok aB) : aB.length = 3 := by
  cases hf : hasFlag c.header ADDM with
  | true => rw [(addrBytes_addm hf h).1]; rfl
  | false => rw [(addrBytes_noaddm hf h).1]; rfl

set_option maxRecDepth 4000 in
/-- Finite check behind the parity claim: for every even byte, the encoded
header byte has an even set-bit count, its bit 0 equals the XOR-fold parity,
and its remaining bits are unchanged; moreover the XOR-fold parity agrees
with the set-bit count parity. -/
theorem parity_fact :
    ∀ h : Fin 256, (h : Nat) % 2 = 0 →
      popCount8 ((h : Nat) ||| parity_odd h) % 2 = 0 ∧
      ((h : Nat) ||| parity_odd h).testBit 0 = (parity_odd h == 1) ∧
      ((h : Nat) ||| parity_odd h) / 2 = (h : Nat) / 2 ∧
      parity_odd h = popCount8 h % 2 := by decide

theorem ok_bind {ε α β : Type} (a : α) (f : α → Except ε β) :
    (Except.ok a >>= f) = f a := rfl

theorem error_bind {ε α β : Type} (e : ε) (f : α → Except ε β) :
    (Except.error e >>= f : Except ε β) = Except.error e := rfl

/-! ## Claim theorems: the binary codec -/

/-- C1: for every command whose header is an even byte (as every header
assembled from the Header flag values is), the first byte of the binary
encoding has an even number of set bits; its bit 0 is set exactly when the
XOR-fold parity of the pre-parity header is odd, the remaining bits are the
pre-parity header's bits, and the XOR-fold parity agrees with the set-bit
parity of the pre-parity header. -/
theorem header_byte_even_parity (c : Command) (bs : List Nat)
    (hok : c.binary = Except.ok bs) (hlt : c.header < 256)
    (hev : c.header % 2 = 0) :
    ∃ b rest, bs = b :: rest ∧
      popCount8 b % 2 = 0 ∧
      b.testBit 0 = (parity_odd c.header == 1) ∧
      b / 2 = c.header / 2 ∧
      parity_odd c.header = popCount8 c.header % 2 := by
  obtain ⟨aB, dB, _, _, _, hshape⟩ := binary_ok_shape hok
  obtain ⟨h1, h2, h3, h4⟩ := parity_fact ⟨c.header, hlt⟩ hev
  exact ⟨c.header ||| parity_odd c.header, c.idx.code :: (aB ++ dB), hshape,
    h1, h2, h3, h4⟩

/-- Witness for the header parity theorem at the GET V channel-3 command of
the specification scenario, which encodes to 88 00 00 00 03 00 00. -/
theorem header_byte_even_parity_witness :
    ∃ b rest, ([0x88, 0x00, 0x00, 0x00, 0x03, 0x00, 0x00] : List Nat)
        = b :: rest ∧
      popCount8 b % 2 = 0 ∧
      b.testBit 0 =
        (parity_odd (Command.postInit { idx := .V, addr := 3 }).header == 1) ∧
      b / 2 = (Command.postInit { idx := .V, addr := 3 }).header / 2 ∧
      parity_odd (Command.postInit { idx := .V, addr := 3 }).header =
        popCount8 (Command.postInit { idx := .V, addr := 3 }).header % 2 :=
  header_byte_even_parity (Command.postInit { idx := .V, addr := 3 })
    [0x88, 0x00, 0x00, 0x00, 0x03, 0x00, 0x00] (by rfl) (by decide) (by decide)

/-- C7: the three address bytes of every successful binary encoding are the
two big-endian device-id bytes followed by the one-byte channel when
DEVICE_ADDRESSED (ADDM) is set, and a zero padding byte followed by the
two big-endian channel bytes when it is unset; each layout comes with its
range constraints and the flag selects the whole layout. -/
theorem addr_field_layout (c : Command) (bs : List Nat)
    (hok : c.binary = Except.ok bs) :
    (hasFlag c.header ADDM = true →
      (bs.drop 2).take 3 = [c.addr_id / 256, c.addr_id % 256, c.addr] ∧
      c.addr_id ≤ 65535 ∧ c.addr ≤ 255) ∧
    (hasFlag c.header ADDM = false →
      (bs.drop 2).take 3 = [0, c.addr / 256, c.addr % 256] ∧
      c.addr ≤ 65535) := by
  obtain ⟨aB, dB, ha, _, _, hshape⟩ := binary_ok_shape hok
  subst hshape
  constructor
  · intro hf
    obtain ⟨haB, h1, h2⟩ := addrBytes_addm hf ha
    subst haB
    exact ⟨rfl, h1, h2⟩
  · intro hf
    obtain ⟨haB, h1⟩ := addrBytes_noaddm hf ha
    subst haB
    exact ⟨rfl, h1⟩

/-- Witness for the address layout theorem at a device-addressed command
(device id 0x1234, channel 7) and its concrete encoding. -/
theorem addr_field_layout_witness :
    (hasFlag (BIN ||| ADDM) ADDM = true →
      (([0x90, 0x00, 0x12, 0x34, 0x07, 0x00, 0x00] : List Nat).drop 2).take 3
          = [0x1234 / 256, 0x1234 % 256, 7] ∧
      0x1234 ≤ 65535 ∧ 7 ≤ 255) ∧
    (hasFlag (BIN ||| ADDM) ADDM = false →
      (([0x90, 0x00, 0x12, 0x34, 0x07, 0x00, 0x00] : List Nat).drop 2).take 3
          = [0, 7 / 256, 7 % 256] ∧
      7 ≤ 65535) :=
  addr_field_layout
    { idx := .V, addr := 7, addr_id := 0x1234, header := BIN ||| ADDM }
    [0x90, 0x00, 0x12, 0x34, 0x07, 0x00, 0x00] (by rfl)

/-- C3 counterexample: with DATA_EXTENDED set and a 65536-element list, the
element count is not capped at 65535; the encoder raises the struct range
error instead. -/
theorem dext_count_not_capped :
    Command.binary oversizedCmd =
      Except.error "struct.error: H format requires 0 <= number <= 65535" := by
  have h1 : packH (List.replicate 65536 (0:Nat)).length =
      Except.error "struct.error: H format requires 0 <= number <= 65535" := by
    rw [List.length_replicate]
    norm_num [packH]
  have hd : Command.dataBytes oversizedCmd =
      Except.error "struct.error: H format requires 0 <= number <= 65535" := by
    simp only [Command.dataBytes, oversizedCmd, Option.getD_some]
    rw [if_pos (by decide : hasFlag (BIN ||| DEXT) DEXT = true)]
    simp only [h1, error_bind]
  have ha : Command.addrBytes oversizedCmd = .ok [0, 0, 0] := by
    simp only [Command.addrBytes, oversizedCmd]
    rw [if_neg (by decide : ¬ hasFlag (BIN ||| DEXT) ADDM = true)]
    rfl
  have hh : packByte (oversizedCmd.header ||| parity_odd oversizedCmd.header)
      = .ok [130] := by rfl
  simp only [Command.binary, hh, ok_bind, ha, hd, error_bind]

/-- C3 amended: with DATA_EXTENDED set and a list payload, a successful
binary encoding has a data field consisting of the 2-byte big-endian element
count followed by one 2-byte big-endian value per element; success forces
the count (and every element) to be at most 65535 -- an oversized list makes
the encoder raise instead of capping the count. -/
theorem dext_data_field (c : Command) (xs : List Nat) (bs : List Nat)
    (hdext : hasFlag c.header DEXT = true)
    (hdata : c.data = some (.list xs))
    (hok : c.binary = Except.ok bs) :
    xs.length ≤ 65535 ∧ (∀ v ∈ xs, v ≤ 65535) ∧
      bs.drop 5 = xs.length / 256 :: xs.length % 256 ::
        xs.flatMap (fun v => [v / 256, v % 256]) := by
  obtain ⟨aB, dB, ha, hd, _, hshape⟩ := binary_ok_shape hok
  simp only [Command.dataBytes, hdata, Option.getD_some, hdext, if_true,
    bind_ok_iff] at hd
  obtain ⟨cnt, hcnt, ws, hws, hout⟩ := hd
  cases hout
  obtain ⟨hcnt', hlen⟩ := packH_ok hcnt
  obtain ⟨hall, hws'⟩ := packHList_ok hws
  subst hcnt' hws' hshape
  refine ⟨hlen, hall, ?_⟩
  have h3 : aB.length = 3 := addrBytes_length ha
  have hdrop : (aB ++ ([xs.length / 256, xs.length % 256] ++
      xs.flatMap (fun v => [v / 256, v % 256]))).drop 3 =
      [xs.length / 256, xs.length % 256] ++
        xs.flatMap (fun v => [v / 256, v % 256]) := by
    rw [← h3]
    exact List.drop_left _ _
  simpa using hdrop

/-- Witness for the extended data field theorem at a two-element list. -/
theorem dext_data_field_witness :
    ([1, 2] : List Nat).length ≤ 65535 ∧
      (∀ v ∈ ([1, 2] : List Nat), v ≤ 65535) ∧
      ([0x82, 0x00, 0x00, 0x00, 0x03, 0x00, 0x02, 0x00, 0x01, 0x00, 0x02]
          : List Nat).drop 5 =
        ([1, 2] : List Nat).length / 256 :: ([1, 2] : List Nat).length % 256 ::
          ([1, 2] : List Nat).flatMap (fun v => [v / 256, v % 256]) :=
  dext_data_field
    { idx := .V, addr := 3, header := BIN ||| DEXT, data := some (.list [1, 2]) }
    [1, 2]
    [0x82, 0x00, 0x00, 0x00, 0x03, 0x00, 0x02, 0x00, 0x01, 0x00, 0x02]
    (by decide) (by rfl) (by rfl)

/-- C8: Command.allowed is true exactly when the command's header equals the
value of one of the header modes its catalog entry declares, and false for
every other header. -/
theorem allowed_iff_declared_mode (c : Command) :
    c.allowed = true ↔ ∃ m ∈ c.idx.header_modes, c.header = m.value := by
  unfold Command.allowed
  constructor
  · intro h
    obtain ⟨m, hm, hv⟩ := List.mem_map.mp (List.elem_iff.mp h)
    exact ⟨m, hm, hv.symm⟩
  · rintro ⟨m, hm, hv⟩
    exact List.elem_iff.mpr (List.mem_map.mpr ⟨m, hm, hv.symm⟩)

/-- C9 counterexample: constructing a command with the supplied data value 0
still adds the READ flag, although a data value was supplied; READ inference
therefore keys on Python falsiness, not on absence. -/
theorem read_inferred_counterexample :
    hasFlag (Command.postInit { idx := .V, data := some (.int 0) }).header RW
        = true ∧
    ({ idx := .V, data := some (.int 0) } : Command).data ≠ none ∧
    hasFlag ({ idx := .V, data := some (.int 0) } : Command).header RW
        = false := by
  decide

set_option maxRecDepth 4000 in
/-- C9 amended: header normalization at construction forces BINARY on, and
adds READ exactly when the data field is falsy in the Python sense --
absent, zero, or an empty list -- rather than only when absent. -/
theorem postInit_forces_bin_infers_read (c : Command)
    (hlt : c.header < 256) :
    hasFlag (Command.postInit c).header BIN = true ∧
    hasFlag (Command.postInit c).header RW =
      (hasFlag c.header RW || dataFalsy c.data) := by
  have key : ∀ h : Fin 256, ∀ b : Bool,
      hasFlag (if b then ((h : Nat) ||| BIN) ||| RW else (h : Nat) ||| BIN)
          BIN = true ∧
      hasFlag (if b then ((h : Nat) ||| BIN) ||| RW else (h : Nat) ||| BIN)
          RW = (hasFlag (h : Nat) RW || b) := by decide
  have hk := key ⟨c.header, hlt⟩ (dataFalsy c.data)
  simpa [Command.postInit] using hk

/-- Witness for the normalization theorem at a command carrying a non-empty
list payload: BINARY is forced and READ is not added. -/
theorem postInit_forces_bin_infers_read_witness :
    hasFlag (Command.postInit { idx := .V, data := some (.list [5]) }).header
        BIN = true ∧
    hasFlag (Command.postInit { idx := .V, data := some (.list [5]) }).header
        RW =
      (hasFlag ({ idx := .V, data := some (.list [5]) } : Command).header RW
        || dataFalsy ({ idx := .V, data := some (.list [5]) } : Command).data) :=
  postInit_forces_bin_infers_read { idx := .V, data := some (.list [5]) }
    (by decide)

set_option maxRecDepth 4000 in
/-- Auxiliary finite check: an even byte with the BIN bit set encodes to a
header byte strictly greater than 0x80. -/
theorem first_byte_gt_fact :
    ∀ h : Fin 256, (h : Nat) % 2 = 0 → hasFlag (h : Nat) BIN = true →
      0x80 < ((h : Nat) ||| parity_odd (h : Nat)) := by decide

/-- C10: every successful binary encoding of a command with a normalized
header (even byte with the BIN flag set) starts with a byte strictly greater
than 0x80, so the simulator's write handler classifies the frame as binary
and keys it by its hex rendering. -/
theorem binary_frame_classified_binary (c : Command) (bs : List Nat)
    (hok : c.binary = Except.ok bs) (hlt : c.header < 256)
    (hev : c.header % 2 = 0) (hbin : hasFlag c.header BIN = true) :
    ∃ b rest, bs = b :: rest ∧ 0x80 < b ∧
      writeKey bs = some (bytesHex bs) := by
  obtain ⟨aB, dB, _, _, _, hshape⟩ := binary_ok_shape hok
  have hgt : 0x80 < (c.header ||| parity_odd c.header) :=
    first_byte_gt_fact ⟨c.header, hlt⟩ hev hbin
  subst hshape
  refine ⟨c.header ||| parity_odd c.header, c.idx.code :: (aB ++ dB), rfl,
    hgt, ?_⟩
  simp only [writeKey]
  rw [if_pos (by exact_mod_cast hgt)]

/-- Witness for the binary classification theorem at the GET V channel-3
command and its concrete seven-byte frame. -/
theorem binary_frame_classified_binary_witness :
    ∃ b rest, ([0x88, 0x00, 0x00, 0x00, 0x03, 0x00, 0x00] : List Nat)
        = b :: rest ∧ 0x80 < b ∧
      writeKey [0x88, 0x00, 0x00, 0x00, 0x03, 0x00, 0x00] =
        some (bytesHex [0x88, 0x00, 0x00, 0x00, 0x03, 0x00, 0x00]) :=
  binary_frame_classified_binary (Command.postInit { idx := .V, addr := 3 })
    [0x88, 0x00, 0x00, 0x00, 0x03, 0x00, 0x00] (by rfl) (by decide) (by decide)
    (by decide)


/-! ## Claim theorems: the transport session collection loop -/

/-- Invariant lemma: a run of the collection loop that starts with no
serial-communication error (id 15) among its accumulated errors and ends
holding one ends with the retry outcome. -/
theorem collectLoop_no15 {α : Type} (P : LoopParams α) :
    ∀ (tr : List RecvStep) (lines : List String) (errs : List PErr)
      (lm : Rat) (o : Outcome α) (fl : List String) (fe : List PErr),
      (∀ e ∈ errs, e.id ≠ 15) →
      collectLoop P tr lines errs lm = some (o, fl, fe) →
      (∃ e ∈ fe, e.id = 15) → o = Outcome.retry := by
  intro tr
  induction tr with
  | nil =>
    intro lines errs lm o fl fe _ hrun _
    simp [collectLoop] at hrun
  | cons s rest ih =>
    intro lines errs lm o fl fe hinv hrun h15
    simp only [collectLoop] at hrun
    split at hrun
    · cases hrun
      obtain ⟨e, he, h15m⟩ := h15
      exact absurd h15m (hinv e he)
    · split at hrun
      · cases hrun
        obtain ⟨e, he, h15m⟩ := h15
        exact absurd h15m (hinv e he)
      · split at hrun
        · cases hrun
          obtain ⟨e, he, h15m⟩ := h15
          exact absurd h15m (hinv e he)
        · split at hrun
          · cases hrun
            obtain ⟨e, he, h15m⟩ := h15
            exact absurd h15m (hinv e he)
          · split at hrun
            next h15any =>
              cases hrun; rfl
            next h15any =>
              have hnone : ∀ e ∈ errs ++ s.recErrs, e.id ≠ 15 := by
                intro e he hc
                exact h15any (List.any_eq_true.mpr ⟨e, he, by simpa using hc⟩)
              split at hrun
              · cases hrun
                obtain ⟨e, he, h15m⟩ := h15
                exact absurd h15m (hnone e he)
              · exact ih _ _ _ _ _ _ hnone hrun h15

/-- C2: whenever the collection loop run receives an error with the serial
communication code 15, its outcome is retry -- the identical command is
reissued through the retry continuation and the error is not surfaced: the
overall result equals the result of the remaining attempts. -/
theorem comm_error_retries {α : Type} (P : LoopParams α) (tr : List RecvStep)
    (rest : List (List RecvStep)) (o : Outcome α) (fl : List String)
    (fe : List PErr)
    (hrun : collectLoop P tr [] [] P.startTime = some (o, fl, fe))
    (h15 : ∃ e ∈ fe, e.id = 15) :
    o = Outcome.retry ∧ issueReceive P (tr :: rest) = issueReceive P rest := by
  have ho : o = .retry :=
    collectLoop_no15 P tr [] [] P.startTime o fl fe (by simp) hrun h15
  subst ho
  refine ⟨rfl, ?_⟩
  simp [issueReceive, hrun]

/-- Witness for the communication-error retry theorem: a single observation
delivering the error with code 15 makes the attempt defer to the remaining
attempts. -/
theorem comm_error_retries_witness :
    (Outcome.retry : Outcome String) = Outcome.retry ∧
      issueReceive (⟨1, [], 10, 1, 0, id⟩ : LoopParams String)
          ([⟨1, 1, [], [⟨15⟩], 1⟩] :: [[⟨1, 1, ["OK\n"], [], 1⟩]]) =
        issueReceive (⟨1, [], 10, 1, 0, id⟩ : LoopParams String)
          [[⟨1, 1, ["OK\n"], [], 1⟩]] :=
  comm_error_retries (⟨1, [], 10, 1, 0, id⟩ : LoopParams String)
    [⟨1, 1, [], [⟨15⟩], 1⟩] [[⟨1, 1, ["OK\n"], [], 1⟩]]
    Outcome.retry [] [⟨15⟩]
    (by norm_num [collectLoop, RESPONSE_OK]) (by simp)

theorem finishLoop_cases {α : Type} (P : LoopParams α) (lines : List String)
    (errs : List PErr) :
    ((lines = [] ∧ errs = []) → finishLoop P lines errs = Outcome.timeoutError) ∧
    ((lines ≠ [] ∨ errs ≠ []) →
      finishLoop P lines errs = Outcome.success (lines.map P.extract)) := by
  unfold finishLoop
  constructor
  · rintro ⟨rfl, rfl⟩
    simp
  · intro h
    rw [if_neg]
    simp only [List.length_eq_zero, not_and_or]
    tauto

/-- C4: a collection-loop run that ends normally (neither retrying nor
raising a target error) fails with the timeout error exactly when it
accumulated no data lines and no errors; otherwise it succeeds with the
accumulated data lines, each mapped through the caller-supplied
extractor. -/
theorem loop_timeout_iff_empty_else_values {α : Type} (P : LoopParams α) :
    ∀ (tr : List RecvStep) (lines : List String) (errs : List PErr)
      (lm : Rat) (o : Outcome α) (fl : List String) (fe : List PErr),
      collectLoop P tr lines errs lm = some (o, fl, fe) →
      o ≠ Outcome.retry → o ≠ Outcome.targetError →
      ((fl = [] ∧ fe = []) → o = Outcome.timeoutError) ∧
      ((fl ≠ [] ∨ fe ≠ []) → o = Outcome.success (fl.map P.extract)) := by
  intro tr
  induction tr with
  | nil =>
    intro lines errs lm o fl fe hrun _ _
    simp [collectLoop] at hrun
  | cons s rest ih =>
    intro lines errs lm o fl fe hrun hnr hnt
    simp only [collectLoop] at hrun
    split at hrun
    · cases hrun
      exact finishLoop_cases P lines errs
    · split at hrun
      · cases hrun
        exact finishLoop_cases P lines errs
      · split at hrun
        · cases hrun
          exact finishLoop_cases P lines errs
        · split at hrun
          · cases hrun
            exact finishLoop_cases P lines errs
          · split at hrun
            · cases hrun
              exact absurd rfl hnr
            · split at hrun
              · cases hrun
                exact absurd rfl hnt
              · exact ih _ _ _ _ _ _ hrun hnr hnt

/-- Witness for the loop outcome theorem: one data line arrives, the
requested line count is reached, and the run succeeds with that line. -/
theorem loop_timeout_iff_empty_else_values_witness :
    ((["A"] : List String) = [] ∧ ([] : List PErr) = [] →
      (Outcome.success ["A"] : Outcome String) = Outcome.timeoutError) ∧
    ((["A"] : List String) ≠ [] ∨ ([] : List PErr) ≠ [] →
      (Outcome.success ["A"] : Outcome String) =
        Outcome.success ((["A"] : List String).map
          (⟨1, [], 10, 1, 0, id⟩ : LoopParams String).extract)) :=
  loop_timeout_iff_empty_else_values (⟨1, [], 10, 1, 0, id⟩ : LoopParams String)
    [⟨0, 0, ["A"], [], 0⟩, ⟨1, 1, [], [], 1⟩] [] [] 0
    (Outcome.success ["A"]) ["A"] []
    (by norm_num [collectLoop, RESPONSE_OK, finishLoop])
    (by simp) (by simp)

/-! ## Claim theorems: program generator and simulator write path -/

theorem updateLast_concat (acc : List VLogEntry) (e : VLogEntry)
    (f : VLogEntry → VLogEntry) :
    updateLast (acc ++ [e]) f = some (acc ++ [f e]) := by
  unfold updateLast
  rw [List.getLast?_concat, List.dropLast_concat]

theorem parseLogAux_resps (rs : List RespItem) :
    ∀ (rest : List QLogItem) (acc : List VLogEntry) (e : VLogEntry)
      (prev : Rat),
      parseLogAux (rs.map RespItem.toQLogItem ++ rest) (acc ++ [e])
          (1000 * prev) =
      parseLogAux rest
        (acc ++ [{ e with responses := e.responses ++ expectedResponses prev rs }])
        (1000 * endTime prev rs) := by
  induction rs with
  | nil =>
    intro rest acc e prev
    simp [expectedResponses, endTime]
  | cons r rs ih =>
    intro rest acc e prev
    cases hr : r.isErr with
    | false =>
      simp only [List.map_cons, List.cons_append, parseLogAux,
        RespItem.toQLogItem, hr, Bool.false_eq_true, if_false,
        updateLast_concat, List.append_eq]
      rw [ih rest acc
        { e with responses :=
            e.responses ++ [⟨1000 * r.rtime - 1000 * prev, r.lines⟩] } r.rtime]
      simp [expectedResponses, endTime, RespItem.data, hr, List.append_assoc]
    | true =>
      simp only [List.map_cons, List.cons_append, parseLogAux,
        RespItem.toQLogItem, hr, if_true, updateLast_concat, List.append_eq]
      rw [ih rest acc
        { e with responses :=
            e.responses ++ [⟨1000 * r.rtime - 1000 * prev, [r.raw]⟩] } r.rtime]
      simp [expectedResponses, endTime, RespItem.data, hr, List.append_assoc]

theorem parseLogAux_blocks (bs : List TxBlock) :
    ∀ (acc : List VLogEntry) (prev : Rat),
      parseLogAux (sessionLog bs) acc prev =
        some (acc ++ bs.map TxBlock.expectedEntry) := by
  induction bs with
  | nil =>
    intro acc prev
    simp [sessionLog, parseLogAux]
  | cons b bs ih =>
    intro acc prev
    show parseLogAux (b.resps.map RespItem.toQLogItem ++ sessionLog bs)
        (acc ++ [b.freshEntry]) (1000 * b.txTime) = _
    rw [parseLogAux_resps b.resps (sessionLog bs) acc b.freshEntry b.txTime]
    rw [ih]
    simp [TxBlock.expectedEntry, TxBlock.freshEntry]

/-- C5 counterexample: for the log tx at 0 ms, rcv at 5 ms, rcv at 9 ms, the
generator records the second response's delay as 4 ms (the delta from the
previous receive), not as the 9 ms delta from the triggering transmit. -/
theorem response_delay_not_from_tx :
    parseLog [⟨0, .tx, "v0?", [], "", false⟩,
              ⟨5/1000, .rcv, "", ["a"], "", false⟩,
              ⟨9/1000, .rcv, "", ["b"], "", false⟩] =
      some [⟨"v0?", "ascii", [⟨5, ["a"]⟩, ⟨4, ["b"]⟩]⟩] ∧
    (4 : Rat) ≠ 9 := by
  constructor
  · norm_num [parseLog, parseLogAux, updateLast]
  · norm_num

/-- C5 amended: the generator pairs each transmit with the receive and error
items that follow it before the next transmit; each response's recorded
delay is the time-delta (in ms) from the immediately preceding log item --
which is the triggering transmit only for the first response -- and a parsed
entry with two or more response chunks becomes a segmented program entry
carrying one frame length and one delay per chunk and no single delay. -/
theorem generator_pairs_and_segments (bs : List TxBlock) (e : VLogEntry)
    (h2 : 2 ≤ e.responses.length) :
    parseLog (sessionLog bs) = some (bs.map TxBlock.expectedEntry) ∧
    (genEntry e).divideFrames =
      some (e.responses.map (fun r => r.data.length)) ∧
    (genEntry e).divideDelays = some (e.responses.map (fun r => r.delay)) ∧
    (genEntry e).delay = none := by
  refine ⟨parseLogAux_blocks bs [] 0, ?_⟩
  have hne : ¬ ((e.responses.map (fun r => r.data.length)).length = 1) := by
    simp only [List.length_map]
    omega
  simp only [genEntry]
  rw [if_neg hne]
  refine ⟨rfl, rfl, ?_⟩
  split <;> rfl

/-- Witness for the pairing and segmentation theorem at a one-block log with
two receives. -/
theorem generator_pairs_and_segments_witness :
    parseLog (sessionLog [⟨0, "v0?", false,
        [⟨1, false, ["a"], ""⟩, ⟨3, false, ["b"], ""⟩]⟩]) =
      some ([⟨0, "v0?", false,
        [⟨1, false, ["a"], ""⟩, ⟨3, false, ["b"], ""⟩]⟩].map
          TxBlock.expectedEntry) ∧
    (genEntry ⟨"v0?", "ascii", [⟨1000, ["a"]⟩, ⟨2000, ["b"]⟩]⟩).divideFrames =
      some (([⟨1000, ["a"]⟩, ⟨2000, ["b"]⟩] : List VResponse).map
        (fun r => r.data.length)) ∧
    (genEntry ⟨"v0?", "ascii", [⟨1000, ["a"]⟩, ⟨2000, ["b"]⟩]⟩).divideDelays =
      some (([⟨1000, ["a"]⟩, ⟨2000, ["b"]⟩] : List VResponse).map
        (fun r => r.delay)) ∧
    (genEntry ⟨"v0?", "ascii", [⟨1000, ["a"]⟩, ⟨2000, ["b"]⟩]⟩).delay = none :=
  generator_pairs_and_segments
    [⟨0, "v0?", false, [⟨1, false, ["a"], ""⟩, ⟨3, false, ["b"], ""⟩]⟩]
    ⟨"v0?", "ascii", [⟨1000, ["a"]⟩, ⟨2000, ["b"]⟩]⟩ (by decide)

/-- C6: a successful simulator write derives the command key from the
written bytes, looks the key up in the program with fallback to the default
entry, increments the invocation counters for that exact key and for the
running total, leaves all other counters unchanged, and dispatches the
response entry at index (count - 1) mod length for the post-increment
invocation count (none when the entry list is empty). -/
theorem handleWrite_selects (p : Program) (st : CmdCnt) (bs : List Nat)
    (st' : CmdCnt) (sel : Option ProgEntry)
    (hrun : handleWrite p st bs = some (st', sel)) :
    ∃ cmd entry, writeKey bs = some cmd ∧ p.getItem cmd = some entry ∧
      st' = incCmdCnt st cmd ∧
      (cmd ≠ "all" →
        readCmdCnt st' cmd = readCmdCnt st cmd + 1 ∧
        readCmdCnt st' "all" = readCmdCnt st "all" + 1) ∧
      (∀ k, k ≠ cmd → k ≠ "all" → readCmdCnt st' k = readCmdCnt st k) ∧
      (∃ i, (alistFind p.cmd2idx cmd = some i ∨
             (alistFind p.cmd2idx cmd = none ∧
              alistFind p.cmd2idx "*" = some i)) ∧
            p.data.get? i = some entry) ∧
      sel = (if entry.entries.isEmpty then none
             else entry.entries.get?
               ((readCmdCnt st' cmd - 1) % entry.entries.length)) := by
  rw [handleWrite] at hrun
  cases hw : writeKey bs with
  | none => rw [hw] at hrun; cases hrun
  | some cmd =>
  rw [hw] at hrun
  simp only [] at hrun
  cases hg : p.getItem cmd with
  | none => rw [hg] at hrun; cases hrun
  | some entry =>
  rw [hg] at hrun
  simp only [] at hrun
  refine ⟨cmd, entry, rfl, hg, ?_⟩
  have hgoal : st' = incCmdCnt st cmd ∧
      sel = (if entry.entries.isEmpty then none
             else entry.entries.get?
               ((readCmdCnt (incCmdCnt st cmd) cmd - 1) % entry.entries.length)) := by
    split at hrun
    · rename_i hemp
      cases hrun
      simp [hemp]
    · rename_i hemp
      cases hrun
      simp [hemp]
  obtain ⟨hst, hsel⟩ := hgoal
  subst hst
  refine ⟨rfl, ?_, ?_, ?_, hsel⟩
  · intro hall
    constructor
    · simp [readCmdCnt, incCmdCnt, bumpKey, hall]
    · simp [readCmdCnt, incCmdCnt, bumpKey, Ne.symm hall]
  · intro k hk hka
    simp [readCmdCnt, incCmdCnt, bumpKey, hk, hka]
  · simp only [Program.getItem] at hg
    by_cases hc : (alistFind p.cmd2idx cmd).isSome
    · rw [if_pos hc] at hg
      obtain ⟨i, hi⟩ := Option.isSome_iff_exists.mp hc
      simp only [hi] at hg
      exact ⟨i, Or.inl hi, hg⟩
    · rw [if_neg hc] at hg
      have hn : alistFind p.cmd2idx cmd = none :=
        Option.not_isSome_iff_eq_none.mp hc
      cases hstar : alistFind p.cmd2idx "*" with
      | none =>
        rw [hstar] at hg
        exact absurd hg (by simp)
      | some i =>
        rw [hstar] at hg
        exact ⟨i, Or.inr ⟨hn, rfl⟩, hg⟩

/-- Witness for the write-selection theorem: writing the ASCII bytes of the
id query against the demonstration program with fresh counters selects the
first scripted response. -/
theorem handleWrite_selects_witness :
    ∃ cmd entry, writeKey [105, 100, 63, 10] = some cmd ∧
      demoProgram.getItem cmd = some entry ∧
      incCmdCnt zeroCnt "id?\n" = incCmdCnt zeroCnt cmd ∧
      (cmd ≠ "all" →
        readCmdCnt (incCmdCnt zeroCnt "id?\n") cmd = readCmdCnt zeroCnt cmd + 1 ∧
        readCmdCnt (incCmdCnt zeroCnt "id?\n") "all" =
          readCmdCnt zeroCnt "all" + 1) ∧
      (∀ k, k ≠ cmd → k ≠ "all" →
        readCmdCnt (incCmdCnt zeroCnt "id?\n") k = readCmdCnt zeroCnt k) ∧
      (∃ i, (alistFind demoProgram.cmd2idx cmd = some i ∨
             (alistFind demoProgram.cmd2idx cmd = none ∧
              alistFind demoProgram.cmd2idx "*" = some i)) ∧
            demoProgram.data.get? i = some entry) ∧
      some demoEntryA = (if entry.entries.isEmpty then none
             else entry.entries.get?
               ((readCmdCnt (incCmdCnt zeroCnt "id?\n") cmd - 1) %
                 entry.entries.length)) :=
  handleWrite_selects demoProgram zeroCnt [105, 100, 63, 10]
    (incCmdCnt zeroCnt "id?\n") (some demoEntryA) (by rfl)
